import Mathlib

/-!
# cbft partition-index plugin layer: registry and the black-hole backend

A shallow embedding of `pindex_impl.go` (the registry of index types and the
`NewPIndexImpl` / `OpenPIndexImpl` dispatchers) and `pindex_impl_blackhole.go`
(the `BlackHole` backend), followed by the properties proved about them.

Conventions of the embedding:

* a Go `error` is `Option GoError`: `none` is `nil`, `some msg` a non-nil error
  carrying its message;
* a Go interface value or pointer that may be `nil` is an `Option`;
* `uint64` is `Nat`, with `% 2 ^ 64` where the code does arithmetic;
* a method with a pointer receiver takes the receiver's state and returns the
  result together with the receiver's state after the call;
* a function that touches the disk takes the file system and returns the result
  together with the file system after the call.
-/

set_option linter.unusedVariables false
set_option linter.dupNamespace false

namespace Cbft

/-! ## Basic types -/

/-- One byte of a `[]byte`. -/
abbrev Byte := Fin 256

/-- The message of a non-nil Go `error`. -/
abbrev GoError := String

/-- The modulus of `uint64` arithmetic. -/
def u64Mod : Nat := 2 ^ 64

/-- The value of `os.PathSeparator` (as on the platforms cbft is deployed on). -/
def PathSeparator : Char := '/'

/-! ## The file system seen through `os.MkdirAll`, `ioutil.WriteFile`, `ioutil.ReadFile`

These three functions belong to the Go standard library, not to the repository;
they are given the semantics of their documentation over a file system that maps
a path to the node found there. Paths are compared as written (no cleaning of
`.`, `..` or doubled separators). -/

/-- What a path names: a regular file with its content, or a directory. -/
inductive FsNode where
  | file (data : List Byte)
  | dir
  deriving DecidableEq

/-- The file system: a map from path to node, `none` where nothing exists. -/
abbrev FileSystem := String → Option FsNode

/-- The file system with nothing in it. -/
def emptyFS : FileSystem := fun _ => none

/-- The file system `fs` with `node` stored at `path`. -/
def fsPut (fs : FileSystem) (path : String) (node : FsNode) : FileSystem :=
  fun q => if q = path then some node else fs q

/-- The directory part of a path: what stands before its last separator
(the empty string when there is no separator or only a leading one). -/
def parentDir (p : String) : String :=
  ⟨((p.data.reverse.dropWhile (fun c => c != PathSeparator)).drop 1).reverse⟩

/-- The path `p` followed by its ancestors, nearest first, the empty path
left out; `fuel` bounds the number of steps. -/
def dirChainAux : Nat → String → List String
  | 0, _ => []
  | fuel + 1, p => if p = "" then [] else p :: dirChainAux fuel (parentDir p)

/-- The path `p` and all its ancestors. Every step of `parentDir` removes at
least one character, so `p.length` steps reach the empty path. -/
def dirChain (p : String) : List String := dirChainAux p.length p

/-- Whether `fs` holds a regular file at `p`. -/
def isFileAt (fs : FileSystem) (p : String) : Bool :=
  match fs p with
  | some (FsNode.file _) => true
  | _ => false

/-- Whether `p` names a directory of `fs`; the empty path stands for the root or
the working directory, which always exists. -/
def isDirAt (fs : FileSystem) (p : String) : Bool :=
  p = "" || fs p = some FsNode.dir

/-- The standard library's `os.MkdirAll(path, perm)`: creates `path` and every
missing ancestor as a directory and returns `nil`; a path that is already a
directory is left alone; fails, changing nothing, for the empty path and
when `path` or an ancestor is a regular file. Permission bits are not tracked. -/
def MkdirAll (path : String) (perm : Nat) (fs : FileSystem) : Option GoError × FileSystem :=
  if path = "" then
    (some "mkdir : no such file or directory", fs)
  else if (dirChain path).any (isFileAt fs) then
    (some ("mkdir " ++ path ++ ": not a directory"), fs)
  else
    (none, fun q => if q ∈ dirChain path then some FsNode.dir else fs q)

/-- The standard library's `ioutil.WriteFile(filename, data, perm)`: creates or
truncates the file and stores `data` in it; fails, changing nothing, when
`filename` is a directory or its directory does not exist. -/
def WriteFile (filename : String) (data : List Byte) (perm : Nat) (fs : FileSystem) :
    Option GoError × FileSystem :=
  match fs filename with
  | some FsNode.dir => (some ("open " ++ filename ++ ": is a directory"), fs)
  | _ =>
    if isDirAt fs (parentDir filename) then
      (none, fsPut fs filename (FsNode.file data))
    else
      (some ("open " ++ filename ++ ": no such file or directory"), fs)

/-- The standard library's `ioutil.ReadFile(filename)`: the content of a regular
file, or an error (with an empty buffer) when nothing or a directory is there.
Reading does not change the file system. -/
def ReadFile (filename : String) (fs : FileSystem) : List Byte × Option GoError :=
  match fs filename with
  | some (FsNode.file data) => (data, none)
  | some FsNode.dir => ([], some ("read " ++ filename ++ ": is a directory"))
  | none => ([], some ("open " ++ filename ++ ": no such file or directory"))

/-! ## Types that are only passed through -/

/-- The `restart func()` callback handed to a backend: an effect on the world
outside the backend. Nothing in these two files calls it. -/
abbrev RestartFn := FileSystem → FileSystem

/-- Stand-in for a `*Manager` argument (the type is declared elsewhere in the
package); such a value is only passed through, never dereferenced. -/
structure Manager where
  uuid : String
  deriving DecidableEq

/-- Stand-in for a `*PIndex` argument (the type is declared elsewhere in the
package); such a value is only passed through, never dereferenced. -/
structure PIndex where
  name : String
  deriving DecidableEq

/-- A `chan struct{}` used for cancellation: whether it has been closed. -/
structure CancelCh where
  closed : Bool
  deriving DecidableEq

/-- An `io.Writer`, as the bytes written to it so far. -/
abbrev Writer := List Byte

/-! ## `pindex_impl_blackhole.go`: the black-hole backend -/

/-- The `BlackHole` struct: implements both the `Dest` and the `PIndexImpl`
interface. -/
structure BlackHole where
  path : String
  totUpdate : Nat
  totDelete : Nat
  deriving DecidableEq

/-- The struct literal `&BlackHole{path: path}`: both counters at their zero value. -/
def BlackHole.mk0 (path : String) : BlackHole :=
  { path := path, totUpdate := 0, totDelete := 0 }

/-- The result triple `(PIndexImpl, Dest, error)` of a constructor. -/
abbrev ImplResult (ι δ : Type) := Option ι × Option δ × Option GoError

/-- The name of the marker file of the black-hole backend under `path`:
`path + string(os.PathSeparator) + "black.hole"`. -/
def markerFile (path : String) : String :=
  path ++ String.singleton PathSeparator ++ "black.hole"

/-- `NewBlackHolePIndexImpl`: makes the directory, writes the empty marker file
and returns the fresh `BlackHole` both as `PIndexImpl` and as `Dest`. -/
def NewBlackHolePIndexImpl (indexType indexParams path : String) (restart : RestartFn)
    (fs : FileSystem) : ImplResult BlackHole BlackHole × FileSystem :=
  match MkdirAll path 0o700 fs with
  | (some err, fs1) => ((none, none, some err), fs1)
  | (none, fs1) =>
    match WriteFile (markerFile path) [] 0o600 fs1 with
    | (some err, fs2) => ((none, none, some err), fs2)
    | (none, fs2) =>
      let dest := BlackHole.mk0 path
      ((some dest, some dest, none), fs2)

/-- `OpenBlackHolePIndexImpl`: reads the marker file and insists that it is empty. -/
def OpenBlackHolePIndexImpl (indexType path : String) (restart : RestartFn)
    (fs : FileSystem) : ImplResult BlackHole BlackHole × FileSystem :=
  match ReadFile (markerFile path) fs with
  | (_, some err) => ((none, none, some err), fs)
  | (buf, none) =>
    if buf.length > 0 then
      ((none, none, some "expected black.hole to be empty"), fs)
    else
      let dest := BlackHole.mk0 path
      ((some dest, some dest, none), fs)

namespace BlackHole

/-- `(*BlackHole).Close`. -/
def Close (t : BlackHole) : Option GoError × BlackHole :=
  (none, t)

/-- `(*BlackHole).OnDataUpdate`: `atomic.AddUint64(&t.totUpdate, 1)`. -/
def OnDataUpdate (t : BlackHole) (partition : String) (key : List Byte) (seq : Nat)
    (val : List Byte) : Option GoError × BlackHole :=
  (none, { t with totUpdate := (t.totUpdate + 1) % u64Mod })

/-- `(*BlackHole).OnDataDelete`: `atomic.AddUint64(&t.totDelete, 1)`. -/
def OnDataDelete (t : BlackHole) (partition : String) (key : List Byte) (seq : Nat) :
    Option GoError × BlackHole :=
  (none, { t with totDelete := (t.totDelete + 1) % u64Mod })

/-- `(*BlackHole).OnSnapshotStart`. -/
def OnSnapshotStart (t : BlackHole) (partition : String) (snapStart snapEnd : Nat) :
    Option GoError × BlackHole :=
  (none, t)

/-- `(*BlackHole).SetOpaque`. -/
def SetOpaque (t : BlackHole) (partition : String) (value : List Byte) :
    Option GoError × BlackHole :=
  (none, t)

/-- `(*BlackHole).GetOpaque`: returns `(value, lastSeq, err)`, a nil `value`
being `none`. -/
def GetOpaque (t : BlackHole) (partition : String) :
    (Option (List Byte) × Nat × Option GoError) × BlackHole :=
  ((none, 0, none), t)

/-- `(*BlackHole).Rollback`. -/
def Rollback (t : BlackHole) (partition : String) (rollbackSeq : Nat) :
    Option GoError × BlackHole :=
  (none, t)

/-- `(*BlackHole).ConsistencyWait`: returns `(curSeq, rollbackTriedSeq, err)`. -/
def ConsistencyWait (t : BlackHole) (partition : String) (consistencyLevel : String)
    (consistencySeq : Nat) (cancelCh : CancelCh) :
    (Nat × Nat × Option GoError) × BlackHole :=
  ((0, 0, none), t)

/-- `(*BlackHole).Count`. -/
def Count (t : BlackHole) (pindex : PIndex) (cancelCh : CancelCh) :
    (Nat × Option GoError) × BlackHole :=
  ((0, none), t)

/-- `(*BlackHole).Query`: returns the error and the writer after the call. -/
def Query (t : BlackHole) (pindex : PIndex) (req : List Byte) (w : Writer)
    (cancelCh : CancelCh) : (Option GoError × Writer) × BlackHole :=
  ((none, w), t)

end BlackHole

/-! ## `pindex_impl.go`: the registry of index types -/

/-- The `PIndexImplType` struct: the descriptor of one index type. -/
structure PIndexImplType (ι δ : Type) where
  New : String → String → String → RestartFn → FileSystem → ImplResult ι δ × FileSystem
  Open : String → String → RestartFn → FileSystem → ImplResult ι δ × FileSystem
  Count : Manager → String → String → Nat × Option GoError
  Query : Manager → String → String → List Byte → Writer → Option GoError × Writer
  Description : String

/-- The map `pindexImplTypes`, keyed by index type: `none` where the key is absent,
`some none` where it is present with a nil descriptor. -/
abbrev Registry (ι δ : Type) := String → Option (Option (PIndexImplType ι δ))

/-- The registry made by `make(map[string]*PIndexImplType)`. -/
def emptyRegistry {ι δ : Type} : Registry ι δ := fun _ => none

/-- The two-valued map read `t, exists := pindexImplTypes[indexType]`: a nil
descriptor and `false` where the key is absent. -/
def mapIndex {ι δ : Type} (reg : Registry ι δ) (indexType : String) :
    Option (PIndexImplType ι δ) × Bool :=
  match reg indexType with
  | some t => (t, true)
  | none => (none, false)

/-- `RegisterPIndexImplType`: `pindexImplTypes[indexType] = t`. -/
def RegisterPIndexImplType {ι δ : Type} (reg : Registry ι δ) (indexType : String)
    (t : Option (PIndexImplType ι δ)) : Registry ι δ :=
  fun k => if k = indexType then some t else reg k

/-- `NewPIndexImpl`: dispatches to the `New` of the registered descriptor. -/
def NewPIndexImpl {ι δ : Type} (reg : Registry ι δ)
    (indexType indexSchema path : String) (restart : RestartFn) (fs : FileSystem) :
    ImplResult ι δ × FileSystem :=
  match mapIndex reg indexType with
  | (some t, true) => t.New indexType indexSchema path restart fs
  | _ => ((none, none, some ("error: NewPIndexImpl indexType: " ++ indexType)), fs)

/-- `OpenPIndexImpl`: dispatches to the `Open` of the registered descriptor. -/
def OpenPIndexImpl {ι δ : Type} (reg : Registry ι δ)
    (indexType path : String) (restart : RestartFn) (fs : FileSystem) :
    ImplResult ι δ × FileSystem :=
  match mapIndex reg indexType with
  | (some t, true) => t.Open indexType path restart fs
  | _ => ((none, none, some ("error: OpenPIndexImpl indexType: " ++ indexType)), fs)

/-- The descriptor that `init` registers under `"blackhole"`. -/
def blackHoleType : PIndexImplType BlackHole BlackHole :=
  { New := NewBlackHolePIndexImpl
    Open := OpenBlackHolePIndexImpl
    Count := fun _mgr _indexName _indexUUID => (0, some "blackhole is uncountable")
    Query := fun _mgr _indexName _indexUUID _req res => (some "blackhole is unqueryable", res)
    Description := "blackhole - ignores all incoming data" ++
      " and is not queryable; used for testing" }

/-- The `init` function of `pindex_impl_blackhole.go`. -/
def init (reg : Registry BlackHole BlackHole) : Registry BlackHole BlackHole :=
  RegisterPIndexImplType reg "blackhole" (some blackHoleType)

/-! ## `PIndexImplTypeForIndex`: from an index name to its descriptor

`Cfg`, `CfgGetIndexDefs`, `IndexDefs` and `IndexDef` are declared elsewhere in
the package. Of the two structs only the fields read here are kept; the
configuration store and the function that reads it are parameters. -/

/-- The `IndexDef` struct, reduced to the field `Type` (spelled `Type_` here). -/
structure IndexDef where
  Type_ : String
  deriving DecidableEq

/-- The `IndexDefs` struct, reduced to its field `IndexDefs`, a
`map[string]*IndexDef` read only through the one-value form `m[k]`: `none`
where the key is absent or holds a nil pointer. -/
structure IndexDefs where
  IndexDefs : String → Option IndexDef

/-- What `CfgGetIndexDefs(cfg)` returns: `(*IndexDefs, uint64, error)`. -/
abbrev IndexDefsResult := Option IndexDefs × Nat × Option GoError

/-- `PIndexImplTypeForIndex`. The result is `none` when the function does not
return because it panics: `indexDefs.IndexDefs` dereferences the pointer
`indexDefs`, which nothing has compared with nil. Otherwise it is the returned
pair `(*PIndexImplType, error)`. The `%v` of an error prints its message. -/
def PIndexImplTypeForIndex {ι δ κ : Type} (reg : Registry ι δ)
    (CfgGetIndexDefs : κ → IndexDefsResult) (cfg : κ) (indexName : String) :
    Option (Option (PIndexImplType ι δ) × Option GoError) :=
  match CfgGetIndexDefs cfg with
  | (_, _, some err) =>
    some (none, some ("could not get indexDefs, indexName: " ++ indexName ++
      ", err: " ++ err))
  | (none, _, none) => none
  | (some indexDefs, _, none) =>
    match indexDefs.IndexDefs indexName with
    | none => some (none, some ("no indexDef, indexName: " ++ indexName))
    | some indexDef =>
      match (mapIndex reg indexDef.Type_).1 with
      | none =>
        some (none, some ("no pindexImplType, indexName: " ++ indexName ++
          ", indexDef.Type: " ++ indexDef.Type_))
      | some pindexImplType => some (some pindexImplType, none)

/-! ## Call sequences on a `BlackHole` -/

/-- One mutation delivered by the feed: a call of `OnDataUpdate` or of
`OnDataDelete` with its arguments. -/
inductive Mutation where
  | update (partition : String) (key : List Byte) (seq : Nat) (val : List Byte)
  | delete (partition : String) (key : List Byte) (seq : Nat)
  deriving DecidableEq

namespace Mutation

/-- The partition argument of the call. -/
def partition : Mutation → String
  | update p _ _ _ => p
  | delete p _ _ => p

/-- The sequence-number argument of the call. -/
def seq : Mutation → Nat
  | update _ _ s _ => s
  | delete _ _ s => s

/-- Whether the call is an `OnDataUpdate`. -/
def isUpdate : Mutation → Bool
  | update _ _ _ _ => true
  | delete _ _ _ => false

/-- Whether the call is an `OnDataDelete`. -/
def isDelete : Mutation → Bool
  | update _ _ _ _ => false
  | delete _ _ _ => true

/-- Makes the call on `t`: the returned error and the state afterwards. -/
def apply (t : BlackHole) : Mutation → Option GoError × BlackHole
  | update p k s v => t.OnDataUpdate p k s v
  | delete p k s => t.OnDataDelete p k s

end Mutation

/-- Makes the calls of `ms` on `t` one after the other: the errors returned, in
order, and the final state. -/
def applyMutations (t : BlackHole) : List Mutation → List (Option GoError) × BlackHole
  | [] => ([], t)
  | m :: ms =>
    let r := m.apply t
    let rest := applyMutations r.2 ms
    (r.1 :: rest.1, rest.2)

/-- One call of a method of the `Dest` / `PIndexImpl` interfaces on a `BlackHole`. -/
inductive DestCall where
  | mutate (m : Mutation)
  | onSnapshotStart (partition : String) (snapStart snapEnd : Nat)
  | setOpaque (partition : String) (value : List Byte)
  | getOpaque (partition : String)
  | rollback (partition : String) (rollbackSeq : Nat)
  | consistencyWait (partition level : String) (seq : Nat) (cancelCh : CancelCh)
  | count (pindex : PIndex) (cancelCh : CancelCh)
  | query (pindex : PIndex) (req : List Byte) (w : Writer) (cancelCh : CancelCh)
  | close

/-- The state of `t` after the call. -/
def DestCall.step (t : BlackHole) : DestCall → BlackHole
  | mutate m => (m.apply t).2
  | onSnapshotStart p a b => (t.OnSnapshotStart p a b).2
  | setOpaque p v => (t.SetOpaque p v).2
  | getOpaque p => (t.GetOpaque p).2
  | rollback p k => (t.Rollback p k).2
  | consistencyWait p l s c => (t.ConsistencyWait p l s c).2
  | count pi c => (t.Count pi c).2
  | query pi r w c => (t.Query pi r w c).2
  | close => t.Close.2

/-- The state of `t` after the calls of `cs`, made in order. -/
def runCalls (t : BlackHole) (cs : List DestCall) : BlackHole :=
  cs.foldl DestCall.step t

/-- The checkpoint scenario: the mutations `ms` are applied to `t`, then
`SetOpaque(partition, value)` writes a checkpoint, then `GetOpaque(partition)`
is asked; the answer of `GetOpaque`. -/
def checkpointAfter (t : BlackHole) (partition : String) (ms : List Mutation)
    (value : List Byte) : Option (List Byte) × Nat × Option GoError :=
  let t1 := (applyMutations t ms).2
  let t2 := (t1.SetOpaque partition value).2
  (t2.GetOpaque partition).1

/-- The state of `t` after `n` calls of `Close`. -/
def closeTimes : Nat → BlackHole → BlackHole
  | 0, t => t
  | n + 1, t => closeTimes n t.Close.2

/-! ## Auxiliary facts -/

theorem parentDir_markerFile (path : String) : parentDir (markerFile path) = path := by
  cases path with
  | mk cs =>
    simp [parentDir, markerFile, PathSeparator, String.singleton, List.dropWhile]

theorem mem_dirChain_self (path : String) (h : path ≠ "") : path ∈ dirChain path := by
  have hlen : path.length ≠ 0 := by
    intro h0
    apply h
    cases path with
    | mk cs =>
      have : cs = [] := List.length_eq_zero.mp h0
      subst this
      rfl
  obtain ⟨n, hn⟩ := Nat.exists_eq_succ_of_ne_zero hlen
  simp [dirChain, hn, dirChainAux, h]

/-- A successful `MkdirAll` leaves a directory at `path`. -/
theorem MkdirAll_ok_dir (path : String) (perm : Nat) (fs : FileSystem)
    (h : (MkdirAll path perm fs).1 = none) :
    (MkdirAll path perm fs).2 path = some FsNode.dir := by
  unfold MkdirAll at h ⊢
  by_cases hp : path = ""
  · simp [hp] at h
  · by_cases hf : (dirChain path).any (isFileAt fs) = true
    · simp [hp, hf] at h
    · simp [hp, hf, mem_dirChain_self path hp]

/-- A successful `WriteFile` leaves a regular file holding `data` at `filename`. -/
theorem WriteFile_ok_file (filename : String) (data : List Byte) (perm : Nat)
    (fs : FileSystem) (h : (WriteFile filename data perm fs).1 = none) :
    (WriteFile filename data perm fs).2 filename = some (FsNode.file data) := by
  unfold WriteFile at h ⊢
  split
  · simp_all
  · by_cases hd : isDirAt fs (parentDir filename) = true
    · simp [hd, fsPut]
    · simp_all

/-- What `OpenBlackHolePIndexImpl` returns, by the node found at the marker file. -/
theorem OpenBlackHole_cases (indexType path : String) (restart : RestartFn)
    (fs : FileSystem) :
    (fs (markerFile path) = some (FsNode.file []) ∧
      OpenBlackHolePIndexImpl indexType path restart fs =
        ((some (BlackHole.mk0 path), some (BlackHole.mk0 path), none), fs)) ∨
    (fs (markerFile path) ≠ some (FsNode.file []) ∧
      ∃ err, OpenBlackHolePIndexImpl indexType path restart fs =
        ((none, none, some err), fs)) := by
  unfold OpenBlackHolePIndexImpl ReadFile
  cases hm : fs (markerFile path) with
  | none => right; simp
  | some node =>
    cases node with
    | dir => right; simp
    | file data =>
      cases data with
      | nil => left; simp
      | cons b bs => right; simp

/-- What `NewBlackHolePIndexImpl` returns, by the outcomes of its two library calls. -/
theorem NewBlackHole_unfold (indexType indexParams path : String) (restart : RestartFn)
    (fs : FileSystem) :
    NewBlackHolePIndexImpl indexType indexParams path restart fs =
      match (MkdirAll path 0o700 fs).1 with
      | some err => ((none, none, some err), (MkdirAll path 0o700 fs).2)
      | none =>
        match (WriteFile (markerFile path) [] 0o600 (MkdirAll path 0o700 fs).2).1 with
        | some err => ((none, none, some err),
            (WriteFile (markerFile path) [] 0o600 (MkdirAll path 0o700 fs).2).2)
        | none => ((some (BlackHole.mk0 path), some (BlackHole.mk0 path), none),
            (WriteFile (markerFile path) [] 0o600 (MkdirAll path 0o700 fs).2).2) := by
  unfold NewBlackHolePIndexImpl
  rcases hm : MkdirAll path 0o700 fs with ⟨e1, fs1⟩
  cases e1 with
  | some err => simp
  | none =>
    simp only
    rcases hw : WriteFile (markerFile path) [] 0o600 fs1 with ⟨e2, fs2⟩
    cases e2 <;> simp

/-- When `NewBlackHolePIndexImpl` succeeds: exactly when `os.MkdirAll` does and
the marker file's name is not taken by a directory. -/
theorem NewBlackHole_ok_iff (indexType indexParams path : String) (restart : RestartFn)
    (fs : FileSystem) :
    (NewBlackHolePIndexImpl indexType indexParams path restart fs).1.2.2 = none ↔
      (MkdirAll path 0o700 fs).1 = none ∧
      (MkdirAll path 0o700 fs).2 (markerFile path) ≠ some FsNode.dir := by
  rw [NewBlackHole_unfold]
  cases hm : (MkdirAll path 0o700 fs).1 with
  | some e => simp
  | none =>
    have hdir := MkdirAll_ok_dir path 0o700 fs hm
    have hpar : isDirAt (MkdirAll path 0o700 fs).2 (parentDir (markerFile path)) = true := by
      simp [isDirAt, parentDir_markerFile, hdir]
    cases hnode : (MkdirAll path 0o700 fs).2 (markerFile path) with
    | none => simp [WriteFile, hnode, hpar]
    | some node =>
      cases node with
      | dir => simp [WriteFile, hnode]
      | file data => simp [WriteFile, hnode, hpar]

/-- Every call of a mutation returns a nil error. -/
theorem applyMutations_errors (t : BlackHole) (ms : List Mutation) :
    (applyMutations t ms).1 = List.replicate ms.length none := by
  induction ms generalizing t with
  | nil => rfl
  | cons m ms ih =>
    cases m <;>
      simp [applyMutations, Mutation.apply, BlackHole.OnDataUpdate, BlackHole.OnDataDelete,
        ih, List.replicate_succ]

/-- Mutations do not touch the `path` field. -/
theorem applyMutations_path (t : BlackHole) (ms : List Mutation) :
    (applyMutations t ms).2.path = t.path := by
  induction ms generalizing t with
  | nil => rfl
  | cons m ms ih =>
    cases m <;>
      simp [applyMutations, Mutation.apply, BlackHole.OnDataUpdate, BlackHole.OnDataDelete, ih]

/-- The update counter after a run, from a counter within `uint64` range. -/
theorem applyMutations_totUpdate (t : BlackHole) (ms : List Mutation)
    (h : t.totUpdate < u64Mod) :
    (applyMutations t ms).2.totUpdate = (t.totUpdate + ms.countP Mutation.isUpdate) % u64Mod := by
  induction ms generalizing t with
  | nil => simp [applyMutations, Nat.mod_eq_of_lt h]
  | cons m ms ih =>
    cases m with
    | update p k s v =>
      have hlt : (t.totUpdate + 1) % u64Mod < u64Mod := Nat.mod_lt _ (by decide)
      simp only [applyMutations, Mutation.apply, BlackHole.OnDataUpdate]
      rw [ih _ hlt]
      simp only [List.countP_cons, Mutation.isUpdate, if_true]
      rw [Nat.add_mod, Nat.mod_mod, ← Nat.add_mod]
      congr 1
      omega
    | delete p k s =>
      simp only [applyMutations, Mutation.apply, BlackHole.OnDataDelete]
      rw [ih ⟨t.path, t.totUpdate, (t.totDelete + 1) % u64Mod⟩ h]
      simp [List.countP_cons, Mutation.isUpdate]

/-- The delete counter after a run, from a counter within `uint64` range. -/
theorem applyMutations_totDelete (t : BlackHole) (ms : List Mutation)
    (h : t.totDelete < u64Mod) :
    (applyMutations t ms).2.totDelete = (t.totDelete + ms.countP Mutation.isDelete) % u64Mod := by
  induction ms generalizing t with
  | nil => simp [applyMutations, Nat.mod_eq_of_lt h]
  | cons m ms ih =>
    cases m with
    | update p k s v =>
      simp only [applyMutations, Mutation.apply, BlackHole.OnDataUpdate]
      rw [ih ⟨t.path, (t.totUpdate + 1) % u64Mod, t.totDelete⟩ h]
      simp [List.countP_cons, Mutation.isDelete]
    | delete p k s =>
      have hlt : (t.totDelete + 1) % u64Mod < u64Mod := Nat.mod_lt _ (by decide)
      simp only [applyMutations, Mutation.apply, BlackHole.OnDataDelete]
      rw [ih _ hlt]
      simp only [List.countP_cons, Mutation.isDelete, if_true]
      rw [Nat.add_mod, Nat.mod_mod, ← Nat.add_mod]
      congr 1
      omega

/-- `Close` leaves the state alone however often it is called. -/
theorem closeTimes_eq (n : Nat) (t : BlackHole) : closeTimes n t = t := by
  induction n generalizing t with
  | zero => rfl
  | succ n ih => simp [closeTimes, BlackHole.Close, ih]

/-- What `PIndexImplTypeForIndex` returns when the pointer it dereferences is
not nil: the descriptor the registry holds for the type of the index's
definition and a nil error when all three lookups succeed, and otherwise a nil
descriptor and an error. -/
theorem PIndexImplTypeForIndex_cases {ι δ κ : Type} (reg : Registry ι δ)
    (CfgGetIndexDefs : κ → IndexDefsResult) (cfg : κ) (indexName : String) :
    (∀ defs cas err, CfgGetIndexDefs cfg = (defs, cas, some err) →
      ∃ msg, PIndexImplTypeForIndex reg CfgGetIndexDefs cfg indexName =
        some (none, some msg)) ∧
    (∀ indexDefs cas, CfgGetIndexDefs cfg = (some indexDefs, cas, none) →
      indexDefs.IndexDefs indexName = none →
      ∃ msg, PIndexImplTypeForIndex reg CfgGetIndexDefs cfg indexName =
        some (none, some msg)) ∧
    (∀ indexDefs cas indexDef, CfgGetIndexDefs cfg = (some indexDefs, cas, none) →
      indexDefs.IndexDefs indexName = some indexDef →
      (mapIndex reg indexDef.Type_).1 = none →
      ∃ msg, PIndexImplTypeForIndex reg CfgGetIndexDefs cfg indexName =
        some (none, some msg)) ∧
    (∀ indexDefs cas indexDef t, CfgGetIndexDefs cfg = (some indexDefs, cas, none) →
      indexDefs.IndexDefs indexName = some indexDef →
      (mapIndex reg indexDef.Type_).1 = some t →
      PIndexImplTypeForIndex reg CfgGetIndexDefs cfg indexName = some (some t, none)) := by
  refine ⟨?_, ?_, ?_, ?_⟩
  · intro defs cas err h
    simp [PIndexImplTypeForIndex, h]
  · intro indexDefs cas h hd
    simp [PIndexImplTypeForIndex, h, hd]
  · intro indexDefs cas indexDef h hd ht
    simp [PIndexImplTypeForIndex, h, hd, ht]
  · intro indexDefs cas indexDef t h hd ht
    simp [PIndexImplTypeForIndex, h, hd, ht]

/-! ## Dispatch on an unknown index type -/

/-- C1: when the index type has no entry in the registry, or its entry is a nil
descriptor, `NewPIndexImpl` and `OpenPIndexImpl` both return a nil `PIndexImpl`,
a nil `Dest` and the unknown-type error, and the file system afterwards is the
one before. The descriptors of the registry are arbitrary functions on the file
system, so an unchanged file system for all of them means none was invoked. -/
theorem unknown_type_fails_without_effect {ι δ : Type} (reg : Registry ι δ)
    (indexType indexSchema path : String) (restart : RestartFn) (fs : FileSystem)
    (h : reg indexType = none ∨ reg indexType = some none) :
    NewPIndexImpl reg indexType indexSchema path restart fs =
        ((none, none, some ("error: NewPIndexImpl indexType: " ++ indexType)), fs) ∧
    OpenPIndexImpl reg indexType path restart fs =
        ((none, none, some ("error: OpenPIndexImpl indexType: " ++ indexType)), fs) := by
  rcases h with h | h <;> simp [NewPIndexImpl, OpenPIndexImpl, mapIndex, h]

/-- C1, at the registry filled by `init` and the type name `"bleve"`, which it
does not hold. -/
theorem unknown_type_fails_without_effect_witness :
    (init emptyRegistry "bleve" = none ∨ init emptyRegistry "bleve" = some none) ∧
    NewPIndexImpl (init emptyRegistry) "bleve" "" "/tmp/p1" id emptyFS =
        ((none, none, some ("error: NewPIndexImpl indexType: " ++ "bleve")), emptyFS) ∧
    OpenPIndexImpl (init emptyRegistry) "bleve" "/tmp/p1" id emptyFS =
        ((none, none, some ("error: OpenPIndexImpl indexType: " ++ "bleve")), emptyFS) :=
  ⟨Or.inl (by simp [init, RegisterPIndexImplType, emptyRegistry]),
    unknown_type_fails_without_effect (init emptyRegistry) "bleve" "" "/tmp/p1" id emptyFS
      (Or.inl (by simp [init, RegisterPIndexImplType, emptyRegistry]))⟩

/-! ## `Count` and `Query` on the `Dest` of the black-hole backend -/

/-- C2, refuted: on the empty file system `NewBlackHolePIndexImpl` succeeds at
path `"/tmp/p1"`, and on the `Dest` it returns `Count` answers `0` with a nil
error and `Query` answers a nil error. -/
theorem dest_count_query_succeed_example :
    (NewBlackHolePIndexImpl "blackhole" "" "/tmp/p1" id emptyFS).1 =
      (some (BlackHole.mk0 "/tmp/p1"), some (BlackHole.mk0 "/tmp/p1"), none) ∧
    ((BlackHole.mk0 "/tmp/p1").Count ⟨"p1"⟩ ⟨false⟩).1 = (0, none) ∧
    ((BlackHole.mk0 "/tmp/p1").Query ⟨"p1"⟩ [] [] ⟨false⟩).1.1 = none := by
  refine ⟨by decide, rfl, rfl⟩

/-- C2 as amended: on the `Dest` returned by a successful `NewBlackHolePIndexImpl`,
`Count` returns `0` and a nil error, `Query` returns a nil error and leaves the
writer as it was, and neither changes the `BlackHole`. -/
theorem dest_count_query_zero_success (indexType indexParams path : String)
    (restart : RestartFn) (fs : FileSystem) (impl dest : BlackHole)
    (h : (NewBlackHolePIndexImpl indexType indexParams path restart fs).1 =
      (some impl, some dest, none)) :
    (∀ (pindex : PIndex) (cancelCh : CancelCh),
      dest.Count pindex cancelCh = ((0, none), dest)) ∧
    (∀ (pindex : PIndex) (req : List Byte) (w : Writer) (cancelCh : CancelCh),
      dest.Query pindex req w cancelCh = ((none, w), dest)) :=
  ⟨fun _ _ => rfl, fun _ _ _ _ => rfl⟩

/-- C2 as amended, at the empty file system and path `"/tmp/p1"`. -/
theorem dest_count_query_zero_success_witness :
    (NewBlackHolePIndexImpl "blackhole" "" "/tmp/p1" id emptyFS).1 =
      (some (BlackHole.mk0 "/tmp/p1"), some (BlackHole.mk0 "/tmp/p1"), none) ∧
    (∀ (pindex : PIndex) (cancelCh : CancelCh),
      (BlackHole.mk0 "/tmp/p1").Count pindex cancelCh = ((0, none), BlackHole.mk0 "/tmp/p1")) ∧
    (∀ (pindex : PIndex) (req : List Byte) (w : Writer) (cancelCh : CancelCh),
      (BlackHole.mk0 "/tmp/p1").Query pindex req w cancelCh =
        ((none, w), BlackHole.mk0 "/tmp/p1")) :=
  ⟨by decide,
    dest_count_query_zero_success "blackhole" "" "/tmp/p1" id emptyFS
      (BlackHole.mk0 "/tmp/p1") (BlackHole.mk0 "/tmp/p1") (by decide)⟩

/-! ## The marker file -/

/-- C3: `OpenBlackHolePIndexImpl` never changes the file system; it returns a nil
error exactly when the marker file `path/black.hole` is a regular file of
length 0, and then returns, as `PIndexImpl` and as `Dest`, a `BlackHole` with
the given path and both counters 0; when the marker file is missing, is not a
regular file or is non-empty it returns a nil `PIndexImpl`, a nil `Dest` and
an error. -/
theorem OpenBlackHole_iff_empty_marker (indexType path : String) (restart : RestartFn)
    (fs : FileSystem) :
    (OpenBlackHolePIndexImpl indexType path restart fs).2 = fs ∧
    ((OpenBlackHolePIndexImpl indexType path restart fs).1.2.2 = none ↔
      fs (markerFile path) = some (FsNode.file [])) ∧
    (fs (markerFile path) = some (FsNode.file []) →
      (OpenBlackHolePIndexImpl indexType path restart fs).1 =
        (some ⟨path, 0, 0⟩, some ⟨path, 0, 0⟩, none)) ∧
    (fs (markerFile path) ≠ some (FsNode.file []) →
      ∃ err, (OpenBlackHolePIndexImpl indexType path restart fs).1 =
        (none, none, some err)) := by
  rcases OpenBlackHole_cases indexType path restart fs with ⟨hm, ho⟩ | ⟨hm, err, ho⟩
  · rw [ho]
    exact ⟨rfl, ⟨fun _ => hm, fun _ => rfl⟩, fun _ => rfl, fun hne => absurd hm hne⟩
  · rw [ho]
    refine ⟨rfl, ⟨fun he => ?_, fun he => absurd he hm⟩, fun he => absurd he hm,
      fun _ => ⟨err, rfl⟩⟩
    simp at he

/-- C3, at a directory holding an empty marker file: the open succeeds. -/
theorem OpenBlackHole_iff_empty_marker_witness :
    fsPut (fsPut emptyFS "/tmp/p1" FsNode.dir) "/tmp/p1/black.hole" (FsNode.file [])
        (markerFile "/tmp/p1") = some (FsNode.file []) ∧
    (OpenBlackHolePIndexImpl "blackhole" "/tmp/p1" id
        (fsPut (fsPut emptyFS "/tmp/p1" FsNode.dir) "/tmp/p1/black.hole" (FsNode.file []))).1 =
      (some ⟨"/tmp/p1", 0, 0⟩, some ⟨"/tmp/p1", 0, 0⟩, none) :=
  ⟨by decide,
    (OpenBlackHole_iff_empty_marker "blackhole" "/tmp/p1" id
      (fsPut (fsPut emptyFS "/tmp/p1" FsNode.dir) "/tmp/p1/black.hole"
        (FsNode.file []))).2.2.1 (by decide)⟩

/-- C4: if `NewBlackHolePIndexImpl` returns a nil error then the file system it
leaves holds an empty regular file at `path/black.hole` (whatever was there
before) and every `OpenBlackHolePIndexImpl` on the same path then succeeds with
a fresh `BlackHole`; if `os.MkdirAll` fails, or it succeeds and
`ioutil.WriteFile` fails, `NewBlackHolePIndexImpl` returns that error with a
nil `PIndexImpl` and a nil `Dest`. -/
theorem NewBlackHole_writes_marker (indexType indexParams path : String)
    (restart : RestartFn) (fs : FileSystem) :
    ((NewBlackHolePIndexImpl indexType indexParams path restart fs).1.2.2 = none →
      (NewBlackHolePIndexImpl indexType indexParams path restart fs).1 =
        (some (BlackHole.mk0 path), some (BlackHole.mk0 path), none) ∧
      (NewBlackHolePIndexImpl indexType indexParams path restart fs).2 (markerFile path) =
        some (FsNode.file []) ∧
      ∀ (indexType2 : String) (restart2 : RestartFn),
        OpenBlackHolePIndexImpl indexType2 path restart2
            (NewBlackHolePIndexImpl indexType indexParams path restart fs).2 =
          ((some (BlackHole.mk0 path), some (BlackHole.mk0 path), none),
            (NewBlackHolePIndexImpl indexType indexParams path restart fs).2)) ∧
    (∀ err, (MkdirAll path 0o700 fs).1 = some err →
      (NewBlackHolePIndexImpl indexType indexParams path restart fs).1 =
        (none, none, some err)) ∧
    (∀ err, (MkdirAll path 0o700 fs).1 = none →
      (WriteFile (markerFile path) [] 0o600 (MkdirAll path 0o700 fs).2).1 = some err →
      (NewBlackHolePIndexImpl indexType indexParams path restart fs).1 =
        (none, none, some err)) := by
  rw [NewBlackHole_unfold]
  refine ⟨?_, ?_, ?_⟩
  · cases hm : (MkdirAll path 0o700 fs).1 with
    | some e => simp
    | none =>
      cases hw : (WriteFile (markerFile path) [] 0o600 (MkdirAll path 0o700 fs).2).1 with
      | some e => simp
      | none =>
        intro _
        have hfile := WriteFile_ok_file (markerFile path) [] 0o600
          (MkdirAll path 0o700 fs).2 hw
        refine ⟨rfl, hfile, fun indexType2 restart2 => ?_⟩
        rcases OpenBlackHole_cases indexType2 path restart2
          (WriteFile (markerFile path) [] 0o600 (MkdirAll path 0o700 fs).2).2 with
          ⟨_, ho⟩ | ⟨hne, _⟩
        · exact ho
        · exact absurd hfile hne
  · intro err hm
    simp [hm]
  · intro err hm hw
    simp [hm, hw]

/-- C4, at a directory whose marker file exists with two bytes in it: the
construction succeeds and leaves the marker file empty. -/
theorem NewBlackHole_writes_marker_witness :
    (NewBlackHolePIndexImpl "blackhole" "" "/tmp/p1" id
        (fsPut (fsPut emptyFS "/tmp/p1" FsNode.dir) "/tmp/p1/black.hole"
          (FsNode.file [1, 2]))).1.2.2 = none ∧
    (NewBlackHolePIndexImpl "blackhole" "" "/tmp/p1" id
        (fsPut (fsPut emptyFS "/tmp/p1" FsNode.dir) "/tmp/p1/black.hole"
          (FsNode.file [1, 2]))).2 (markerFile "/tmp/p1") = some (FsNode.file []) :=
  ⟨by decide,
    ((NewBlackHole_writes_marker "blackhole" "" "/tmp/p1" id
      (fsPut (fsPut emptyFS "/tmp/p1" FsNode.dir) "/tmp/p1/black.hole"
        (FsNode.file [1, 2]))).1 (by decide)).2.1⟩

/-! ## Registration -/

/-- C5: after `RegisterPIndexImplType(n, d)` the lookup of `n` finds `d`,
whatever the registry held under `n` before; the lookup of every other name is
what it was; and every name that had an entry still has one. -/
theorem register_lookup {ι δ : Type} (reg : Registry ι δ) (n : String)
    (d : Option (PIndexImplType ι δ)) :
    mapIndex (RegisterPIndexImplType reg n d) n = (d, true) ∧
    (∀ k, k ≠ n → mapIndex (RegisterPIndexImplType reg n d) k = mapIndex reg k) ∧
    (∀ k, (mapIndex reg k).2 = true →
      (mapIndex (RegisterPIndexImplType reg n d) k).2 = true) := by
  refine ⟨by simp [mapIndex, RegisterPIndexImplType], ?_, ?_⟩
  · intro k hk
    simp [mapIndex, RegisterPIndexImplType, hk]
  · intro k hk
    by_cases hkn : k = n
    · simp [mapIndex, RegisterPIndexImplType, hkn]
    · simpa [mapIndex, RegisterPIndexImplType, hkn] using hk

/-! ## Checkpoints of the black-hole backend -/

/-- C6, refuted: one update with sequence number 1 on partition `"0"`, then a
checkpoint write, then `GetOpaque`: the last sequence number applied is 1 and
`GetOpaque` reports `lastSeq` 0. -/
theorem getOpaque_after_mutation_example :
    checkpointAfter (BlackHole.mk0 "/tmp/p1") "0" [Mutation.update "0" [107] 1 [118]] [99] =
      (none, 0, none) ∧
    ([Mutation.update "0" [107] 1 [118]].map Mutation.seq).getLast? = some 1 ∧
    List.Chain' (fun a b => a < b) ([Mutation.update "0" [107] 1 [118]].map Mutation.seq) := by
  refine ⟨rfl, rfl, ?_⟩
  simp

/-- C6 as amended: after mutations on one partition with strictly increasing
sequence numbers ending in `sn` and a checkpoint write with `SetOpaque`,
`GetOpaque` for that partition returns a nil value, `lastSeq` 0 and a nil
error; so its `lastSeq` equals `sn` only when `sn` is 0. -/
theorem getOpaque_after_mutations_zero (t : BlackHole) (partition : String)
    (ms : List Mutation) (value : List Byte) (sn : Nat)
    (hpart : ∀ m ∈ ms, m.partition = partition)
    (hinc : List.Chain' (fun a b => a < b) (ms.map Mutation.seq))
    (hlast : (ms.map Mutation.seq).getLast? = some sn) :
    checkpointAfter t partition ms value = (none, 0, none) ∧
    ((checkpointAfter t partition ms value).2.1 = sn ↔ sn = 0) := by
  have h : checkpointAfter t partition ms value = (none, 0, none) := rfl
  rw [h]
  exact ⟨rfl, ⟨fun e => e.symm, fun e => e.symm⟩⟩

/-- C6 as amended, at three mutations with sequence numbers 3, 5, 9. -/
theorem getOpaque_after_mutations_zero_witness :
    checkpointAfter (BlackHole.mk0 "/tmp/p1") "0"
        [Mutation.update "0" [107] 3 [118], Mutation.delete "0" [107] 5,
          Mutation.update "0" [108] 9 []] [99] = (none, 0, none) ∧
    ((checkpointAfter (BlackHole.mk0 "/tmp/p1") "0"
        [Mutation.update "0" [107] 3 [118], Mutation.delete "0" [107] 5,
          Mutation.update "0" [108] 9 []] [99]).2.1 = 9 ↔ 9 = 0) :=
  getOpaque_after_mutations_zero (BlackHole.mk0 "/tmp/p1") "0"
    [Mutation.update "0" [107] 3 [118], Mutation.delete "0" [107] 5,
      Mutation.update "0" [108] 9 []] [99] 9
    (by simp [Mutation.partition]) (by simp [Mutation.seq]) (by simp [Mutation.seq])

/-- C7: in the state reached from any `BlackHole` by any sequence of calls of
the `Dest` methods (a `SetOpaque` with a non-empty value among them),
`GetOpaque` returns, for every partition, a nil value, `lastSeq` 0 and a nil
error, and leaves the state alone. -/
theorem getOpaque_no_checkpoint (t : BlackHole) (cs : List DestCall) (partition : String) :
    (runCalls t cs).GetOpaque partition = ((none, 0, none), runCalls t cs) :=
  rfl

/-! ## Counters -/

/-- C8: from a fresh `BlackHole`, after any sequence of `OnDataUpdate` and
`OnDataDelete` calls, every call has returned a nil error, `totUpdate` is the
number of updates modulo `2^64`, `totDelete` is the number of deletes modulo
`2^64` and `path` is what it was; one `OnDataUpdate` adds 1 to `totUpdate`
(in `uint64` arithmetic) and nothing else, one `OnDataDelete` adds 1 to
`totDelete` and nothing else. -/
theorem counters_count_calls (path : String) (ms : List Mutation) :
    (applyMutations (BlackHole.mk0 path) ms).1 = List.replicate ms.length none ∧
    (applyMutations (BlackHole.mk0 path) ms).2.totUpdate =
      ms.countP Mutation.isUpdate % 2 ^ 64 ∧
    (applyMutations (BlackHole.mk0 path) ms).2.totDelete =
      ms.countP Mutation.isDelete % 2 ^ 64 ∧
    (applyMutations (BlackHole.mk0 path) ms).2.path = path ∧
    (∀ (t : BlackHole) (partition : String) (key : List Byte) (seq : Nat) (val : List Byte),
      t.OnDataUpdate partition key seq val =
        (none, ⟨t.path, (t.totUpdate + 1) % 2 ^ 64, t.totDelete⟩)) ∧
    (∀ (t : BlackHole) (partition : String) (key : List Byte) (seq : Nat),
      t.OnDataDelete partition key seq =
        (none, ⟨t.path, t.totUpdate, (t.totDelete + 1) % 2 ^ 64⟩)) := by
  have hu := applyMutations_totUpdate (BlackHole.mk0 path) ms (by simp [BlackHole.mk0, u64Mod])
  have hd := applyMutations_totDelete (BlackHole.mk0 path) ms (by simp [BlackHole.mk0, u64Mod])
  simp only [BlackHole.mk0, Nat.zero_add, u64Mod] at hu hd
  exact ⟨applyMutations_errors _ ms, hu, hd, applyMutations_path _ ms,
    fun _ _ _ _ _ => rfl, fun _ _ _ _ => rfl⟩

/-! ## Calls without effect -/

/-- C9: `OnSnapshotStart`, `SetOpaque`, `Rollback` and `Close` return a nil error
and the `BlackHole` they were called on, unchanged, for all arguments; after
any number of `Close` calls the state is still the same and a further `Close`
again returns a nil error. -/
theorem noop_calls (t : BlackHole) :
    (∀ (partition : String) (snapStart snapEnd : Nat),
      t.OnSnapshotStart partition snapStart snapEnd = (none, t)) ∧
    (∀ (partition : String) (value : List Byte), t.SetOpaque partition value = (none, t)) ∧
    (∀ (partition : String) (rollbackSeq : Nat),
      t.Rollback partition rollbackSeq = (none, t)) ∧
    t.Close = (none, t) ∧
    (∀ n : Nat, closeTimes n t = t ∧ (closeTimes n t).Close = (none, t)) := by
  refine ⟨fun _ _ _ => rfl, fun _ _ => rfl, fun _ _ => rfl, rfl, fun n => ?_⟩
  rw [closeTimes_eq]
  exact ⟨rfl, rfl⟩

/-- C10: `ConsistencyWait` returns `curSeq` 0, `rollbackTriedSeq` 0 and a nil
error for every state, partition, consistency level, target sequence number
and cancel channel, without waiting on anything and without changing the
`BlackHole`. -/
theorem consistencyWait_immediate (t : BlackHole) (partition consistencyLevel : String)
    (consistencySeq : Nat) (cancelCh : CancelCh) :
    t.ConsistencyWait partition consistencyLevel consistencySeq cancelCh =
      ((0, 0, none), t) :=
  rfl

/-! ## The descriptor of the black-hole type -/

/-- C11: after `init` the registry holds under `"blackhole"` a descriptor whose
`New` is `NewBlackHolePIndexImpl` and whose `Open` is `OpenBlackHolePIndexImpl`;
for every manager, index name, index UUID, request and writer its `Count`
returns 0 with the error "blackhole is uncountable" and its `Query` returns the
error "blackhole is unqueryable" and leaves the writer as it was. -/
theorem init_registers_blackhole (reg : Registry BlackHole BlackHole) :
    mapIndex (init reg) "blackhole" = (some blackHoleType, true) ∧
    blackHoleType.New = NewBlackHolePIndexImpl ∧
    blackHoleType.Open = OpenBlackHolePIndexImpl ∧
    (∀ (mgr : Manager) (indexName indexUUID : String),
      blackHoleType.Count mgr indexName indexUUID = (0, some "blackhole is uncountable")) ∧
    (∀ (mgr : Manager) (indexName indexUUID : String) (req : List Byte) (res : Writer),
      blackHoleType.Query mgr indexName indexUUID req res =
        (some "blackhole is unqueryable", res)) := by
  refine ⟨?_, rfl, rfl, fun _ _ _ => rfl, fun _ _ _ _ _ => rfl⟩
  simp [mapIndex, init, RegisterPIndexImplType]

/-! ## Rollback -/

/-- C12: in the state reached from any `BlackHole` by any sequence of `Dest`
calls, `Rollback(partition, k)` returns a nil error, and the `GetOpaque` for
the same partition that follows returns a nil error and a `lastSeq` that is at
most `k`. -/
theorem rollback_then_getOpaque_le (t : BlackHole) (cs : List DestCall)
    (partition : String) (k : Nat) :
    ((runCalls t cs).Rollback partition k).1 = none ∧
    ((((runCalls t cs).Rollback partition k).2).GetOpaque partition).1.2.2 = none ∧
    ((((runCalls t cs).Rollback partition k).2).GetOpaque partition).1.2.1 ≤ k :=
  ⟨rfl, rfl, Nat.zero_le k⟩

/-! ## Dispatch on a registered index type -/

/-- C13: when the registry maps `n` to the non-nil descriptor `d`,
`NewPIndexImpl` returns what `d.New` returns on the same arguments and
`OpenPIndexImpl` what `d.Open` returns, result and file system alike, whatever
else the registry holds; after `init`, `NewPIndexImpl` and `OpenPIndexImpl` on
`"blackhole"` are `NewBlackHolePIndexImpl` and `OpenBlackHolePIndexImpl`. -/
theorem dispatch_registered {ι δ : Type} (reg : Registry ι δ) (n : String)
    (d : PIndexImplType ι δ) (h : reg n = some (some d)) :
    (∀ (indexSchema path : String) (restart : RestartFn) (fs : FileSystem),
      NewPIndexImpl reg n indexSchema path restart fs =
        d.New n indexSchema path restart fs) ∧
    (∀ (path : String) (restart : RestartFn) (fs : FileSystem),
      OpenPIndexImpl reg n path restart fs = d.Open n path restart fs) ∧
    (∀ (reg0 : Registry BlackHole BlackHole) (indexSchema path : String)
        (restart : RestartFn) (fs : FileSystem),
      NewPIndexImpl (init reg0) "blackhole" indexSchema path restart fs =
        NewBlackHolePIndexImpl "blackhole" indexSchema path restart fs) ∧
    (∀ (reg0 : Registry BlackHole BlackHole) (path : String)
        (restart : RestartFn) (fs : FileSystem),
      OpenPIndexImpl (init reg0) "blackhole" path restart fs =
        OpenBlackHolePIndexImpl "blackhole" path restart fs) := by
  refine ⟨?_, ?_, ?_, ?_⟩
  · intro indexSchema path restart fs
    simp [NewPIndexImpl, mapIndex, h]
  · intro path restart fs
    simp [OpenPIndexImpl, mapIndex, h]
  · intro reg0 indexSchema path restart fs
    simp [NewPIndexImpl, mapIndex, init, RegisterPIndexImplType, blackHoleType]
  · intro reg0 path restart fs
    simp [OpenPIndexImpl, mapIndex, init, RegisterPIndexImplType, blackHoleType]

/-- C13, at a registry that holds a nil descriptor under `"null"` and the
black-hole descriptor under `"blackhole"`. -/
theorem dispatch_registered_witness :
    init (RegisterPIndexImplType emptyRegistry "null" none) "blackhole" =
      some (some blackHoleType) ∧
    NewPIndexImpl (init (RegisterPIndexImplType emptyRegistry "null" none)) "blackhole" ""
        "/tmp/p1" id emptyFS =
      blackHoleType.New "blackhole" "" "/tmp/p1" id emptyFS ∧
    OpenPIndexImpl (init (RegisterPIndexImplType emptyRegistry "null" none)) "blackhole"
        "/tmp/p1" id emptyFS =
      blackHoleType.Open "blackhole" "/tmp/p1" id emptyFS :=
  ⟨by simp [init, RegisterPIndexImplType],
    (dispatch_registered (init (RegisterPIndexImplType emptyRegistry "null" none))
      "blackhole" blackHoleType (by simp [init, RegisterPIndexImplType])).1
        "" "/tmp/p1" id emptyFS,
    (dispatch_registered (init (RegisterPIndexImplType emptyRegistry "null" none))
      "blackhole" blackHoleType (by simp [init, RegisterPIndexImplType])).2.1
        "/tmp/p1" id emptyFS⟩

/-! ## Index definitions that are nil -/

/-- C14, at the failing input: when `CfgGetIndexDefs` returns a nil `*IndexDefs`
together with a nil error, `PIndexImplTypeForIndex` returns nothing (it
panics on the nil pointer), where a nil descriptor and an error were due. -/
theorem typeForIndex_nil_indexDefs :
    PIndexImplTypeForIndex (init emptyRegistry)
      (fun (_ : Unit) => ((none, 0, none) : IndexDefsResult)) () "idx" = none :=
  rfl

end Cbft
